import Mathlib

/-!
Verification of `epi_forecast_stat_mech/sir_sim.py`: a shallow embedding of
the discrete-time stochastic SIR simulator and its batch orchestrator.

Modelling conventions:
* Python integers are `Int` (arbitrary precision, exact).
* Python floats that only enter comparisons and linear arithmetic are `ℚ`
  (the source values involved are exactly representable ratios; no rounding
  behaviour is claimed or verified).
* `scipy.stats.binom.rvs(n, p)` draws are abstracted by an oracle
  `RandomSource`: a function from (step index, number of trials) to a draw.
  The only fact used about a binomial sample is that it lies in `[0, n]`,
  captured by `RandomSource.Admissible`.  The probabilities
  `1 - exp(-beta*frac)` and `1 - exp(-gamma)` influence only the
  *distribution* of a draw, never its support, so `beta` and `gamma` are
  carried as (otherwise unused) parameters of the embedded functions.
* The unbounded `while` loop of the simulator is given explicit fuel and
  returns `Option`: `none` means the fuel ran out before the loop exited
  (the Python loop is still running); `some` is a completed run.
* `np.random.uniform` draws are likewise oracle streams of rationals.
-/

/-- Oracle for the two `stats.binom.rvs` call sites of
`generate_ground_truth_SIR_curve`.  `binomInf step n` is the draw for
`num_new_infections` (`n` trials = current susceptible count) at loop
iteration `step`; `binomRec step n` the draw for `num_new_recoveries`
(`n` trials = current infected count). -/
structure RandomSource where
  binomInf : Nat → Int → Int
  binomRec : Nat → Int → Int

/-- A binomial sample over `n ≥ 0` trials lies in `[0, n]`. -/
def RandomSource.Admissible (rs : RandomSource) : Prop :=
  ∀ i n, 0 ≤ n → (0 ≤ rs.binomInf i n ∧ rs.binomInf i n ≤ n) ∧
    (0 ≤ rs.binomRec i n ∧ rs.binomRec i n ≤ n)

/-- The three compartment counts of the simulator loop. -/
structure SIRState where
  num_susceptible : Int
  num_infected : Int
  num_recovered : Int
  deriving Repr, DecidableEq

/-- One iteration of the `while num_infected > 0` loop body of
`generate_ground_truth_SIR_curve` (sir_sim.py lines 108-132): draw new
infections and recoveries, return the updated state together with the
value appended to `list_of_new_infections` (the new-infection draw). -/
def sirStep (rs : RandomSource) (step : Nat) (s : SIRState) : SIRState × Int :=
  let num_new_infections := rs.binomInf step s.num_susceptible
  let num_new_recoveries := rs.binomRec step s.num_infected
  ({ num_susceptible := s.num_susceptible - num_new_infections
     num_infected := s.num_infected + num_new_infections - num_new_recoveries
     num_recovered := s.num_recovered + num_new_recoveries },
   num_new_infections)

/-- The simulator's `while` loop with explicit fuel.  `acc` is the
`list_of_new_infections` accumulated so far; each iteration appends the
new-infection draw before updating the state, exactly as the source does. -/
def sirLoopAux (rs : RandomSource) : Nat → Nat → SIRState → List Int →
    Option (List Int)
  | 0, _, s, acc => if s.num_infected > 0 then none else some acc
  | fuel + 1, step, s, acc =>
    if s.num_infected > 0 then
      let r := sirStep rs step s
      sirLoopAux rs fuel (step + 1) r.1 (acc ++ [r.2])
    else some acc

/-- Initial state of `generate_ground_truth_SIR_curve`: one infected,
zero recovered, `pop_size - 1` susceptible. -/
def sirInit (pop_size : Int) : SIRState :=
  { num_susceptible := pop_size - 1, num_infected := 1, num_recovered := 0 }

/-- Embedding of `generate_ground_truth_SIR_curve(pop_size, beta, gamma)`
(sir_sim.py lines 84-134).  `beta` and `gamma` shape only the binomial
success probabilities, which the draw oracle abstracts, so they are unused
here; `fuel` bounds the unbounded source loop (`none` = not yet
terminated). -/
def generate_ground_truth_SIR_curve (rs : RandomSource) (fuel : Nat)
    (pop_size : Int) (beta gamma : ℚ) : Option (List Int) :=
  sirLoopAux rs fuel 0 (sirInit pop_size) [1]

/-- Inclusive prefix sums starting from `acc`: the embedding of
`np.cumsum` applied after the given running total. -/
def cumsumFrom (acc : Int) : List Int → List Int
  | [] => []
  | x :: xs => (acc + x) :: cumsumFrom (acc + x) xs

/-- `np.cumsum`: inclusive prefix sums, `(cumsum l)[i] = l[0] + ... + l[i]`. -/
def cumsum (l : List Int) : List Int := cumsumFrom 0 l

/-- `np.max(np.where(cumulative < target))` — the largest index of
`cumulative` whose entry is `< target`, or `none` when no entry is
(in which case the NumPy expression raises `ValueError`). -/
def maxIndexLt (cumulative : List Int) (target : ℚ) : Option Nat :=
  ((List.range cumulative.length).filter
    (fun i => decide ((cumulative.getD i 0 : ℚ) < target))).max?

/-- The rejection-sampling `while total_infections < 10 and count < 5000`
loop of `generate_observed_SIR_curves` (sir_sim.py lines 157-164),
parametrised over `gen`, the per-attempt ground-truth simulator output
(`gen count = none` when that attempt's simulation ran out of fuel).
State: `g` is the last generated curve (`none` before the first attempt,
matching the Python variable being unbound), `total` the last total,
`count` the attempt counter.  Returns the loop's final
`(ground_truth_infections, total_infections, count)`. -/
def rejectionGo (gen : Nat → Option (List Int)) : Nat → Option (List Int) →
    Int → Nat → Option (List Int × Int × Nat)
  | rem, g, total, count =>
    if total < 10 ∧ count < 5000 then
      match rem, gen count with
      | _, none => none
      | 0, some _ => none
      | rem' + 1, some gt => rejectionGo gen rem' (some gt) gt.sum (count + 1)
    else
      match g with
      | none => none
      | some gt => some (gt, total, count)

/-- The rejection loop entered at counter `count`: the structural bound
`5000 - count` makes the unreachable `rem = 0` branch of `rejectionGo`
dead, since the loop guard enforces `count < 5000`. -/
def rejectionLoop (gen : Nat → Option (List Int)) (g : Option (List Int))
    (total : Int) (count : Nat) : Option (List Int × Int × Nat) :=
  rejectionGo gen (5000 - count) g total count

/-- The per-attempt simulator used by `generate_observed_SIR_curves`:
attempt `a` runs `generate_ground_truth_SIR_curve` on the `a`-th random
source of the family. -/
def gtGen (rsf : Nat → RandomSource) (fuel : Nat) (pop_size : Int)
    (beta gamma : ℚ) : Nat → Option (List Int) :=
  fun a => generate_ground_truth_SIR_curve (rsf a) fuel pop_size beta gamma

/-- Embedding of
`generate_observed_SIR_curves(percent_infected, pop_size, beta, gamma)`
(sir_sim.py lines 136-178).  `none` arises either from insufficient fuel
for some simulation attempt (model artifact) or from
`np.max(np.where(...))` on an empty index set, which raises `ValueError`
in the source. -/
def generate_observed_SIR_curves (rsf : Nat → RandomSource) (fuel : Nat)
    (percent_infected : ℚ) (pop_size : Int) (beta gamma : ℚ) :
    Option (List Int × List Int) :=
  match rejectionLoop (gtGen rsf fuel pop_size beta gamma) none 0 0 with
  | none => none
  | some (ground_truth_infections, total_infections, _) =>
    let target_size : ℚ := (total_infections : ℚ) * percent_infected
    let cumulative_infections := cumsum ground_truth_infections
    match maxIndexLt cumulative_infections target_size with
    | none => none
    | some m =>
      let current_time := max m 2
      some (ground_truth_infections.take current_time, ground_truth_infections)

/-- The `meta_data` named tuple (sir_sim.py lines 16-19). -/
structure MetaData where
  num_epidemics : Nat
  epidemic_id : Nat
  frac_estimate_of_total : ℚ
  percent_infected : ℚ
  pop_size : Int
  beta : ℚ
  gamma : ℚ
  deriving Repr, DecidableEq

/-- The `disease_trajectory` named tuple (sir_sim.py lines 33-51).
`v` here is the column `v[:, k]` stored in the trajectory. -/
structure DiseaseTrajectory where
  unique_id : Nat
  simulation_number : Nat
  epidemic_number : Nat
  num_new_infections_over_time : List Int
  estimated_infections : ℚ
  ground_truth_infections_over_time : List Int
  total_infections : Int
  v : List ℚ
  alpha : List ℚ
  metadata : MetaData
  t : List Nat
  ground_truth_t : List Nat
  cumulative_infections_over_time : List Int
  ground_truth_cumulative_infections_over_time : List Int
  deriving Repr, DecidableEq

/-- `np.cumsum(np.concatenate(([0.], series)))[:-1]`: the "non-predictive"
cumulative sums, i.e. prefix sums excluding the current day. -/
def nonPredictiveCumsum (series : List Int) : List Int :=
  (cumsum (0 :: series)).dropLast

/-- Column `k` of the covariate matrix `v` (`v[:, k]`), rows as lists. -/
def matColumn (v : List (List ℚ)) (k : Nat) : List ℚ :=
  v.map (fun row => row.getD k 0)

/-- The per-slot metadata built by the first loop of
`generate_SIR_simulations` (sir_sim.py lines 214-218). -/
def mkMetaData (num_epidemics : Nat) (const_estimate_of_total : ℚ)
    (percent_infected : Nat → ℚ) (constant_pop_size : Int) (beta : List ℚ)
    (constant_gamma : ℚ) (i : Nat) : MetaData :=
  { num_epidemics := num_epidemics
    epidemic_id := i
    frac_estimate_of_total := const_estimate_of_total
    percent_infected := percent_infected i
    pop_size := constant_pop_size
    beta := beta.getD i 0
    gamma := constant_gamma }

/-- Inputs of `generate_SIR_simulations` after the two random draws at the
top of the function: the result `(beta, v, alpha)` of the single
`gen_beta_fn(*beta_gen_parameters)` call, the `np.random.uniform(0.05,
1.0, num_epidemics)` stream `percent_infected`, and a random-source family
`rsf j k` for the simulation attempts of slot `k` in replicate `j`. -/
structure SimConfig where
  rsf : Nat → Nat → Nat → RandomSource
  fuel : Nat
  beta : List ℚ
  v : List (List ℚ)
  alpha : List ℚ
  percent_infected : Nat → ℚ
  num_simulations : Nat
  num_epidemics : Nat
  constant_gamma : ℚ
  constant_pop_size : Int
  const_estimate_of_total : ℚ

/-- The body of the inner loop of `generate_SIR_simulations` (sir_sim.py
lines 223-250): run the observation extractor on slot `k`'s metadata
fields 3..6 `(percent_infected, pop_size, beta, gamma)` and assemble a
`DiseaseTrajectory`. -/
def mkTrajectory (cfg : SimConfig) (uid j k : Nat) :
    Option DiseaseTrajectory :=
  let md := mkMetaData cfg.num_epidemics cfg.const_estimate_of_total
    cfg.percent_infected cfg.constant_pop_size cfg.beta cfg.constant_gamma k
  match generate_observed_SIR_curves (cfg.rsf j k) cfg.fuel
      md.percent_infected md.pop_size md.beta md.gamma with
  | none => none
  | some (observed_infections, ground_truth_infections) =>
    some
      { unique_id := uid
        simulation_number := j
        epidemic_number := k
        num_new_infections_over_time := observed_infections
        estimated_infections :=
          (observed_infections.sum : ℚ) / md.frac_estimate_of_total
        ground_truth_infections_over_time := ground_truth_infections
        total_infections := ground_truth_infections.sum
        v := matColumn cfg.v k
        alpha := cfg.alpha
        metadata := md
        t := List.range observed_infections.length
        ground_truth_t := List.range ground_truth_infections.length
        cumulative_infections_over_time :=
          nonPredictiveCumsum observed_infections
        ground_truth_cumulative_infections_over_time :=
          nonPredictiveCumsum ground_truth_infections }

/-- The inner `for k in range(num_epidemics)` loop: starting at epidemic
index `k` and id counter `uid`, with `rem` slots remaining. -/
def epiLoop (cfg : SimConfig) (j : Nat) : Nat → Nat → Nat →
    Option (List DiseaseTrajectory)
  | _, _, 0 => some []
  | uid, k, rem + 1 =>
    match mkTrajectory cfg uid j k with
    | none => none
    | some dt =>
      match epiLoop cfg j (uid + 1) (k + 1) rem with
      | none => none
      | some rest => some (dt :: rest)

/-- The outer `for j in range(num_simulations)` loop, `rem` replicates
remaining. -/
def simLoop (cfg : SimConfig) : Nat → Nat → Nat →
    Option (List DiseaseTrajectory)
  | _, _, 0 => some []
  | uid, j, rem + 1 =>
    match epiLoop cfg j uid 0 cfg.num_epidemics with
    | none => none
    | some inner =>
      match simLoop cfg (uid + cfg.num_epidemics) (j + 1) rem with
      | none => none
      | some rest => some (inner ++ rest)

/-- Embedding of `generate_SIR_simulations` (sir_sim.py lines 180-252)
from the point where `beta, v, alpha` and `percent_infected` have been
drawn (both draws happen once, before the nested loops; `SimConfig`
records their results). -/
def generate_SIR_simulations (cfg : SimConfig) :
    Option (List DiseaseTrajectory) :=
  simLoop cfg 0 0 cfg.num_simulations

/-- Dot product `alpha · column`, the entry of `np.matmul(alpha, v)`. -/
def dotProduct (a b : List ℚ) : ℚ := (a.zip b).foldr (fun p s => p.1 * p.2 + s) 0

/-- Embedding of `generate_betas_from_single_random_covariate(num_epidemics)`
(sir_sim.py lines 259-274).  `u` is the `np.random.uniform(0.0, 1.0,
(1, num_epidemics))` draw stream; `expF` abstracts `np.exp` (its values
are irrational, so only the structure of the formula is embedded). -/
def generate_betas_from_single_random_covariate (expF : ℚ → ℚ)
    (u : Nat → ℚ) (num_epidemics : Nat) : List ℚ × List (List ℚ) × List ℚ :=
  let v : List (List ℚ) := [(List.range num_epidemics).map u]
  let alpha : List ℚ := [1]
  let beta : List ℚ :=
    (List.range num_epidemics).map
      (fun i => (4 : ℚ) / 10 * expF (dotProduct alpha (matColumn v i)))
  (beta, v, alpha)

/-- A concrete admissible random source: every susceptible individual is
infected and every infected individual recovers at each step. -/
def rsTotal : RandomSource where
  binomInf := fun _ n => n
  binomRec := fun _ n => n

/-- A concrete admissible random source whose run from `sirInit 32`
produces the curve `[1, 2, 4, 8, 16, 0]` (new-infection draws 2, 4, 8,
16 with no recoveries, then full recovery). -/
def rsDoubling : RandomSource where
  binomInf := fun i n =>
    min n (if i = 0 then 2 else if i = 1 then 4 else
      if i = 2 then 8 else if i = 3 then 16 else 0)
  binomRec := fun i n => if i ≤ 3 then min n 0 else n

/-- The sum of the three compartments of a state. -/
def SIRState.popTotal (s : SIRState) : Int :=
  s.num_susceptible + s.num_infected + s.num_recovered

/-- A concrete batch configuration used to witness the orchestrator
theorems: 2 simulations × 2 epidemics over `rsTotal` draws. -/
def cfgW : SimConfig where
  rsf := fun _ _ _ => rsTotal
  fuel := 5
  beta := [1, 1]
  v := [[1/2, 1/4]]
  alpha := [1]
  percent_infected := fun _ => 1/2
  num_simulations := 2
  num_epidemics := 2
  constant_gamma := 1/3
  constant_pop_size := 20
  const_estimate_of_total := 1/2

theorem rsTotal_admissible : rsTotal.Admissible := by
  intro i n hn
  exact ⟨⟨hn, le_refl n⟩, hn, le_refl n⟩

theorem rsDoubling_admissible : rsDoubling.Admissible := by
  intro i n hn
  simp only [rsDoubling]
  refine ⟨⟨?_, ?_⟩, ?_, ?_⟩ <;> split_ifs <;> omega

theorem sirStep_popTotal (rs : RandomSource) (step : Nat) (s : SIRState) :
    ((sirStep rs step s).1).popTotal = s.popTotal := by
  simp only [sirStep, SIRState.popTotal]
  ring

theorem sirInit_popTotal (pop_size : Int) :
    (sirInit pop_size).popTotal = pop_size := by
  simp only [sirInit, SIRState.popTotal]
  ring

/-- If the loop returns, the result extends the accumulator, and (for an
admissible source started from non-negative compartments) everything
appended is non-negative. -/
theorem sirLoopAux_some_spec (rs : RandomSource) (hrs : rs.Admissible) :
    ∀ (fuel step : Nat) (s : SIRState) (acc l : List Int),
      0 ≤ s.num_susceptible → 0 ≤ s.num_infected →
      sirLoopAux rs fuel step s acc = some l →
      ∃ rest, l = acc ++ rest ∧ ∀ x ∈ rest, 0 ≤ x := by
  intro fuel
  induction fuel with
  | zero =>
    intro step s acc l _ _ h
    simp only [sirLoopAux] at h
    split at h
    · exact absurd h (by simp)
    · exact ⟨[], by simpa using h.symm, by simp⟩
  | succ fuel ih =>
    intro step s acc l hS hI h
    simp only [sirLoopAux] at h
    split at h
    · have hinf := (hrs step s.num_susceptible hS).1
      have hrec := (hrs step s.num_infected hI).2
      have hS' : 0 ≤ ((sirStep rs step s).1).num_susceptible := by
        simp only [sirStep]
        omega
      have hI' : 0 ≤ ((sirStep rs step s).1).num_infected := by
        simp only [sirStep]
        omega
      obtain ⟨rest, hl, hpos⟩ := ih (step + 1) _ _ l hS' hI' h
      refine ⟨(sirStep rs step s).2 :: rest, by simpa using hl, ?_⟩
      intro x hx
      rcases List.mem_cons.mp hx with hx | hx
      · subst hx
        simpa [sirStep] using hinf.1
      · exact hpos x hx
    · exact ⟨[], by simpa using h.symm, by simp⟩

/-- A completed run of the ground-truth simulator on a positive population
with an admissible source: the curve starts at 1, has at least two entries,
and all entries are non-negative. -/
theorem ground_truth_some_spec (rs : RandomSource) (hrs : rs.Admissible)
    (fuel : Nat) (pop_size : Int) (beta gamma : ℚ) (l : List Int)
    (hpop : 0 < pop_size)
    (h : generate_ground_truth_SIR_curve rs fuel pop_size beta gamma = some l) :
    l.head? = some 1 ∧ 2 ≤ l.length ∧ ∀ x ∈ l, 0 ≤ x := by
  unfold generate_ground_truth_SIR_curve at h
  match fuel, h with
  | 0, h =>
    simp [sirLoopAux, sirInit] at h
  | fuel + 1, h =>
    rw [show sirLoopAux rs (fuel + 1) 0 (sirInit pop_size) [1]
        = sirLoopAux rs fuel 1 ((sirStep rs 0 (sirInit pop_size)).1)
            ([1] ++ [(sirStep rs 0 (sirInit pop_size)).2]) from by
      simp [sirLoopAux, sirInit]] at h
    have hS' : 0 ≤ ((sirStep rs 0 (sirInit pop_size)).1).num_susceptible := by
      have := (hrs 0 (pop_size - 1) (by omega)).1
      simp only [sirStep, sirInit]
      omega
    have hI' : 0 ≤ ((sirStep rs 0 (sirInit pop_size)).1).num_infected := by
      have := (hrs 0 (pop_size - 1) (by omega)).1
      have := (hrs 0 (1 : Int) (by omega)).2
      simp only [sirStep, sirInit]
      omega
    obtain ⟨rest, hl, hpos⟩ := sirLoopAux_some_spec rs hrs fuel 1 _ _ l hS' hI' h
    have hd : 0 ≤ (sirStep rs 0 (sirInit pop_size)).2 := by
      have := (hrs 0 (pop_size - 1) (by omega)).1
      simpa [sirStep, sirInit] using this.1
    subst hl
    refine ⟨rfl, by simp, ?_⟩
    intro x hx
    simp only [List.mem_append, List.mem_singleton] at hx
    rcases hx with (rfl | rfl) | hx
    · omega
    · exact hd
    · exact hpos x hx

/-- C4: in `generate_ground_truth_SIR_curve`, for every `pop_size > 0`,
`beta > 0`, `gamma ∈ (0,1)`, the equality
`susceptible + infected + recovered = pop_size` holds for the initial
state and is preserved by every iteration of the simulation loop. -/
theorem generate_ground_truth_population_conserved
    (rs : RandomSource) (pop_size : Int) (beta gamma : ℚ)
    (hpop : 0 < pop_size) (hbeta : 0 < beta)
    (hgamma0 : 0 < gamma) (hgamma1 : gamma < 1) :
    (sirInit pop_size).popTotal = pop_size ∧
    ∀ (step : Nat) (s : SIRState), s.popTotal = pop_size →
      ((sirStep rs step s).1).popTotal = pop_size := by
  refine ⟨sirInit_popTotal pop_size, ?_⟩
  intro step s hs
  rw [sirStep_popTotal, hs]

theorem generate_ground_truth_population_conserved_witness :
    (sirInit 20).popTotal = 20 ∧
    ∀ (step : Nat) (s : SIRState), s.popTotal = 20 →
      ((sirStep rsTotal step s).1).popTotal = 20 :=
  generate_ground_truth_population_conserved rsTotal 20 1 (1/3)
    (by decide) (by with_unfolding_all decide)
    (by with_unfolding_all decide) (by with_unfolding_all decide)

/-- C7: whenever `generate_ground_truth_SIR_curve` returns (for
`pop_size > 0`, `beta > 0`, `gamma ∈ (0,1)` and draws that are possible
binomial samples), the returned sequence starts with 1 and every element
is non-negative. -/
theorem generate_ground_truth_head_one_nonneg
    (rs : RandomSource) (fuel : Nat) (pop_size : Int) (beta gamma : ℚ)
    (l : List Int)
    (hrs : rs.Admissible) (hpop : 0 < pop_size) (hbeta : 0 < beta)
    (hgamma0 : 0 < gamma) (hgamma1 : gamma < 1)
    (hret : generate_ground_truth_SIR_curve rs fuel pop_size beta gamma
      = some l) :
    l.head? = some 1 ∧ ∀ x ∈ l, 0 ≤ x := by
  obtain ⟨h1, _, h3⟩ :=
    ground_truth_some_spec rs hrs fuel pop_size beta gamma l hpop hret
  exact ⟨h1, h3⟩

theorem generate_ground_truth_head_one_nonneg_witness :
    ([1, 19, 0] : List Int).head? = some 1 ∧
      ∀ x ∈ ([1, 19, 0] : List Int), 0 ≤ x :=
  generate_ground_truth_head_one_nonneg rsTotal 5 20 1 (1/3) [1, 19, 0]
    rsTotal_admissible (by decide) (by with_unfolding_all decide)
    (by with_unfolding_all decide) (by with_unfolding_all decide)
    (by decide)

/-- C10: in the loop of `generate_ground_truth_SIR_curve` (admissible
draws, `pop_size > 0`), the compartments start non-negative; at every
step the new-infection draw is bounded by the current susceptible count
and the new-recovery draw by the current infected count, the updated
compartments stay non-negative, and the appended new-infection count
lies in `[0, pop_size]`. -/
theorem sir_compartments_nonneg
    (rs : RandomSource) (pop_size : Int)
    (hrs : rs.Admissible) (hpop : 0 < pop_size) :
    (0 ≤ (sirInit pop_size).num_susceptible ∧
      0 ≤ (sirInit pop_size).num_infected ∧
      0 ≤ (sirInit pop_size).num_recovered) ∧
    ∀ (step : Nat) (s : SIRState),
      0 ≤ s.num_susceptible → 0 ≤ s.num_infected → 0 ≤ s.num_recovered →
      s.popTotal = pop_size →
      (0 ≤ rs.binomInf step s.num_susceptible ∧
        rs.binomInf step s.num_susceptible ≤ s.num_susceptible) ∧
      (0 ≤ rs.binomRec step s.num_infected ∧
        rs.binomRec step s.num_infected ≤ s.num_infected) ∧
      0 ≤ ((sirStep rs step s).1).num_susceptible ∧
      0 ≤ ((sirStep rs step s).1).num_infected ∧
      0 ≤ ((sirStep rs step s).1).num_recovered ∧
      0 ≤ (sirStep rs step s).2 ∧ (sirStep rs step s).2 ≤ pop_size := by
  constructor
  · refine ⟨?_, ?_, ?_⟩ <;> simp only [sirInit] <;> omega
  intro step s hS hI hR hsum
  have hinf := (hrs step s.num_susceptible hS).1
  have hrec := (hrs step s.num_infected hI).2
  simp only [SIRState.popTotal] at hsum
  refine ⟨hinf, hrec, ?_, ?_, ?_, ?_, ?_⟩ <;> simp only [sirStep] <;> omega

theorem sir_compartments_nonneg_witness :
    (0 ≤ (sirInit 20).num_susceptible ∧
      0 ≤ (sirInit 20).num_infected ∧
      0 ≤ (sirInit 20).num_recovered) ∧
    ∀ (step : Nat) (s : SIRState),
      0 ≤ s.num_susceptible → 0 ≤ s.num_infected → 0 ≤ s.num_recovered →
      s.popTotal = 20 →
      (0 ≤ rsTotal.binomInf step s.num_susceptible ∧
        rsTotal.binomInf step s.num_susceptible ≤ s.num_susceptible) ∧
      (0 ≤ rsTotal.binomRec step s.num_infected ∧
        rsTotal.binomRec step s.num_infected ≤ s.num_infected) ∧
      0 ≤ ((sirStep rsTotal step s).1).num_susceptible ∧
      0 ≤ ((sirStep rsTotal step s).1).num_infected ∧
      0 ≤ ((sirStep rsTotal step s).1).num_recovered ∧
      0 ≤ (sirStep rsTotal step s).2 ∧ (sirStep rsTotal step s).2 ≤ 20 :=
  sir_compartments_nonneg rsTotal 20 rsTotal_admissible (by decide)

/-- Entering the rejection loop below the threshold with enough structural
budget: it runs at least one attempt, at most until `count` reaches 5000,
stops at the first attempt whose total reaches 10, and returns that
attempt's curve together with its total. -/
theorem rejectionGo_progress (gen : Nat → Option (List Int)) :
    ∀ (rem : Nat), ∀ (count : Nat) (g0 : Option (List Int)) (total0 : Int),
      5000 - count ≤ rem → count < 5000 → total0 < 10 →
      (∀ a, count ≤ a → a < 5000 → ∃ c, gen a = some c) →
      ∃ gt cnt,
        rejectionGo gen rem g0 total0 count = some (gt, gt.sum, cnt) ∧
        count + 1 ≤ cnt ∧ cnt ≤ 5000 ∧ gen (cnt - 1) = some gt ∧
        (∀ a, count ≤ a → a + 1 < cnt → ∀ c, gen a = some c → c.sum < 10) ∧
        (10 ≤ gt.sum ∨ cnt = 5000) := by
  intro rem
  induction rem with
  | zero =>
    intro count g0 total0 hrem hcount
    omega
  | succ rem ih =>
    intro count g0 total0 hrem hcount htotal hgen
    obtain ⟨c, hc⟩ := hgen count (le_refl _) hcount
    have hstep : rejectionGo gen (rem + 1) g0 total0 count
        = rejectionGo gen rem (some c) c.sum (count + 1) := by
      rw [rejectionGo.eq_def]
      dsimp only
      rw [if_pos (⟨htotal, hcount⟩ : total0 < 10 ∧ count < 5000), hc]
    by_cases hnext : c.sum < 10 ∧ count + 1 < 5000
    · obtain ⟨gt, cnt, heq, h1, h2, h3, h4, h5⟩ :=
        ih (count + 1) (some c) c.sum (by omega) hnext.2 hnext.1
          (fun a ha ha' => hgen a (by omega) ha')
      refine ⟨gt, cnt, by rw [hstep]; exact heq, by omega, h2, h3, ?_, h5⟩
      intro a ha ha' d hd
      rcases Nat.eq_or_lt_of_le ha with rfl | hlt
      · rw [hc] at hd
        injection hd with hd
        subst hd
        exact hnext.1
      · exact h4 a (by omega) ha' d hd
    · have hdone : rejectionGo gen rem (some c) c.sum (count + 1)
          = some (c, c.sum, count + 1) := by
        rw [rejectionGo.eq_def]
        dsimp only
        rw [if_neg hnext]
      refine ⟨c, count + 1, by rw [hstep, hdone], le_refl _, by omega,
        by simpa using hc, ?_, ?_⟩
      · intro a ha ha' d hd
        omega
      · rcases not_and_or.mp hnext with h | h
        · left
          omega
        · right
          omega

/-- Whatever the rejection loop returns was produced by the attempt
generator (or was the curve it entered with), and the returned total is
that curve's sum. -/
theorem rejectionGo_some_inv (gen : Nat → Option (List Int)) :
    ∀ (rem : Nat) (g0 : Option (List Int)) (total0 : Int) (count : Nat)
      (gt : List Int) (total : Int) (cnt : Nat),
      (∀ c, g0 = some c → total0 = c.sum) →
      rejectionGo gen rem g0 total0 count = some (gt, total, cnt) →
      total = gt.sum ∧ (g0 = some gt ∨ ∃ a, gen a = some gt) := by
  intro rem
  induction rem with
  | zero =>
    intro g0 total0 count gt total cnt hg0 h
    rw [rejectionGo.eq_def] at h
    dsimp only at h
    split at h
    · rcases hgc : gen count with _ | c <;> rw [hgc] at h <;> simp at h
    · match g0, h with
      | some c, h =>
        simp only [Option.some.injEq, Prod.mk.injEq] at h
        obtain ⟨rfl, rfl, rfl⟩ := h
        exact ⟨hg0 _ rfl, Or.inl rfl⟩
  | succ rem ih =>
    intro g0 total0 count gt total cnt hg0 h
    rw [rejectionGo.eq_def] at h
    dsimp only at h
    split at h
    · rcases hgc : gen count with _ | c <;> rw [hgc] at h
      · simp at h
      · obtain ⟨h1, h2⟩ := ih (some c) c.sum (count + 1) gt total cnt
          (fun d hd => by injection hd with hd; rw [hd]) h
        refine ⟨h1, Or.inr ?_⟩
        rcases h2 with h2 | h2
        · injection h2 with h2
          exact ⟨count, h2 ▸ hgc⟩
        · exact h2
    · match g0, h with
      | some c, h =>
        injection h with h
        simp only [Option.some.injEq, Prod.mk.injEq] at h
        obtain ⟨rfl, rfl, rfl⟩ := h
        exact ⟨hg0 _ rfl, Or.inl rfl⟩

/-- C3: the rejection loop of `generate_observed_SIR_curves` retries the
simulator until a curve with total infections ≥ 10, making at most 5000
attempts; it stops at the first such curve, and when all 5000 attempts
stay below 10 it raises no error and returns the last generated curve
(so the returned total may be < 10 only in that exhaustion case). -/
theorem rejection_sampling_spec (gen : Nat → Option (List Int))
    (hgen : ∀ a, a < 5000 → ∃ c, gen a = some c) :
    ∃ gt cnt,
      rejectionLoop gen none 0 0 = some (gt, gt.sum, cnt) ∧
      1 ≤ cnt ∧ cnt ≤ 5000 ∧
      gen (cnt - 1) = some gt ∧
      (∀ a, a + 1 < cnt → ∀ c, gen a = some c → c.sum < 10) ∧
      (10 ≤ gt.sum ∨ cnt = 5000) := by
  obtain ⟨gt, cnt, heq, h1, h2, h3, h4, h5⟩ :=
    rejectionGo_progress gen 5000 0 none 0 (by omega) (by omega) (by omega)
      (fun a _ ha => hgen a ha)
  exact ⟨gt, cnt, heq, h1, h2, h3, fun a ha c hc => h4 a (by omega) ha c hc,
    h5⟩

theorem rejection_sampling_spec_witness :
    ∃ gt cnt,
      rejectionLoop (fun _ => some [12]) none 0 0 = some (gt, gt.sum, cnt) ∧
      1 ≤ cnt ∧ cnt ≤ 5000 ∧
      (fun _ => some [12] : Nat → Option (List Int)) (cnt - 1) = some gt ∧
      (∀ a, a + 1 < cnt → ∀ c,
        (fun _ => some [12] : Nat → Option (List Int)) a = some c →
          c.sum < 10) ∧
      (10 ≤ gt.sum ∨ cnt = 5000) :=
  rejection_sampling_spec (fun _ => some [12]) (fun _ _ => ⟨[12], rfl⟩)

theorem cumsumFrom_length (acc : Int) (l : List Int) :
    (cumsumFrom acc l).length = l.length := by
  induction l generalizing acc with
  | nil => rfl
  | cons x xs ih => simp [cumsumFrom, ih]

theorem cumsumFrom_getD (acc : Int) (l : List Int) :
    ∀ i, i < l.length →
      (cumsumFrom acc l).getD i 0 = acc + (l.take (i + 1)).sum := by
  induction l generalizing acc with
  | nil =>
    intro i hi
    simp at hi
  | cons x xs ih =>
    intro i hi
    cases i with
    | zero => simp [cumsumFrom]
    | succ i =>
      simp only [cumsumFrom, List.getD_cons_succ, List.take_succ_cons,
        List.sum_cons]
      rw [ih (acc + x) i (by simpa using hi)]
      ring

theorem cumsum_length (l : List Int) : (cumsum l).length = l.length :=
  cumsumFrom_length 0 l

theorem cumsum_getD (l : List Int) (i : Nat) (hi : i < l.length) :
    (cumsum l).getD i 0 = (l.take (i + 1)).sum := by
  rw [cumsum, cumsumFrom_getD 0 l i hi]
  ring

theorem maxIndexLt_none_iff (c : List Int) (t : ℚ) :
    maxIndexLt c t = none ↔ ∀ i, i < c.length → ¬((c.getD i 0 : ℚ) < t) := by
  unfold maxIndexLt
  rw [List.max?_eq_none_iff]
  constructor
  · intro h i hi hlt
    have hmem : i ∈ (List.range c.length).filter
        (fun i => decide ((c.getD i 0 : ℚ) < t)) := by
      rw [List.mem_filter]
      exact ⟨List.mem_range.mpr hi, by simpa using hlt⟩
    rw [h] at hmem
    simp at hmem
  · intro h
    rw [List.filter_eq_nil_iff]
    intro a ha
    simp only [List.mem_range] at ha
    simpa using h a ha

theorem maxIndexLt_some_spec (c : List Int) (t : ℚ) (m : Nat)
    (h : maxIndexLt c t = some m) :
    m < c.length ∧ ((c.getD m 0 : ℚ) < t) ∧
      ∀ i, i < c.length → ((c.getD i 0 : ℚ) < t) → i ≤ m := by
  unfold maxIndexLt at h
  rw [List.max?_eq_some_iff'] at h
  obtain ⟨hmem, hmax⟩ := h
  rw [List.mem_filter, List.mem_range] at hmem
  refine ⟨hmem.1, by simpa using hmem.2, ?_⟩
  intro i hi hlt
  exact hmax i
    (by rw [List.mem_filter, List.mem_range]; exact ⟨hi, by simpa using hlt⟩)

theorem maxIndexLt_isSome (c : List Int) (t : ℚ) (i : Nat)
    (hi : i < c.length) (hlt : (c.getD i 0 : ℚ) < t) :
    ∃ m, maxIndexLt c t = some m := by
  rcases hm : maxIndexLt c t with _ | m
  · rw [maxIndexLt_none_iff] at hm
    exact absurd hlt (hm i hi)
  · exact ⟨m, rfl⟩

theorem generate_observed_eq_some (rsf : Nat → RandomSource) (fuel : Nat)
    (percent beta gamma : ℚ) (pop : Int)
    (gt : List Int) (total : Int) (cnt : Nat) (m : Nat)
    (hrun : rejectionLoop (gtGen rsf fuel pop beta gamma) none 0 0
      = some (gt, total, cnt))
    (hmax : maxIndexLt (cumsum gt) ((total : ℚ) * percent) = some m) :
    generate_observed_SIR_curves rsf fuel percent pop beta gamma
      = some (gt.take (max m 2), gt) := by
  unfold generate_observed_SIR_curves
  rw [hrun]
  dsimp only
  rw [hmax]

theorem generate_observed_some_inv (rsf : Nat → RandomSource) (fuel : Nat)
    (percent : ℚ) (pop : Int) (beta gamma : ℚ) (observed gt : List Int)
    (h : generate_observed_SIR_curves rsf fuel percent pop beta gamma
      = some (observed, gt)) :
    ∃ total cnt m,
      rejectionLoop (gtGen rsf fuel pop beta gamma) none 0 0
        = some (gt, total, cnt) ∧
      maxIndexLt (cumsum gt) ((total : ℚ) * percent) = some m ∧
      observed = gt.take (max m 2) := by
  unfold generate_observed_SIR_curves at h
  rcases hr : rejectionLoop (gtGen rsf fuel pop beta gamma) none 0 0
    with _ | ⟨gt', total, cnt⟩ <;> rw [hr] at h
  · simp at h
  · dsimp only at h
    rcases hm : maxIndexLt (cumsum gt') ((total : ℚ) * percent)
      with _ | m <;> rw [hm] at h
    · simp at h
    · simp only [Option.some.injEq, Prod.mk.injEq] at h
      obtain ⟨h1, h2⟩ := h
      subst h2
      exact ⟨total, cnt, m, rfl, hm, h1.symm⟩

/-- A successful rejection-loop run hands back a curve that was produced
by the ground-truth simulator, so (with admissible draws) it starts with
1, has at least two entries, and is non-negative; the returned total is
its sum. -/
theorem rejectionLoop_gt_spec (rsf : Nat → RandomSource)
    (hrsf : ∀ a, (rsf a).Admissible) (fuel : Nat) (pop : Int)
    (beta gamma : ℚ) (hpop : 0 < pop)
    (gt : List Int) (total : Int) (cnt : Nat)
    (hrun : rejectionLoop (gtGen rsf fuel pop beta gamma) none 0 0
      = some (gt, total, cnt)) :
    total = gt.sum ∧ gt.head? = some 1 ∧ 2 ≤ gt.length ∧ ∀ x ∈ gt, 0 ≤ x := by
  unfold rejectionLoop at hrun
  obtain ⟨hts, hsrc⟩ := rejectionGo_some_inv _ (5000 - 0) none 0 0 gt total cnt
    (by simp) hrun
  rcases hsrc with h | ⟨a, ha⟩
  · simp at h
  · obtain ⟨h1, h2, h3⟩ :=
      ground_truth_some_spec (rsf a) (hrsf a) fuel pop beta gamma gt hpop ha
    exact ⟨hts, h1, h2, h3⟩

/-- C1 (amended): for `percent_infected ∈ [0,1)`, `pop_size > 0`,
`beta > 0`, `gamma ∈ (0,1)` with admissible draws, whenever the rejection
loop completes *and the target size exceeds the first cumulative count*
(`1 < total_infections * percent_infected`), `generate_observed_SIR_curves`
returns normally with `2 ≤ len(observed) ≤ len(ground_truth)`.  (The
unamended claim is refuted by `generate_observed_empty_where_raises`:
when no cumulative entry is below the target, `np.max(np.where(...))`
raises instead of flooring `current_time` at 2.) -/
theorem generate_observed_window_bounds
    (rsf : Nat → RandomSource) (fuel : Nat) (percent : ℚ) (pop : Int)
    (beta gamma : ℚ) (gt : List Int) (total : Int) (cnt : Nat)
    (hrsf : ∀ a, (rsf a).Admissible)
    (hpop : 0 < pop) (hp0 : 0 ≤ percent) (hp1 : percent < 1)
    (hbeta : 0 < beta) (hg0 : 0 < gamma) (hg1 : gamma < 1)
    (hrun : rejectionLoop (gtGen rsf fuel pop beta gamma) none 0 0
      = some (gt, total, cnt))
    (htarget : 1 < (total : ℚ) * percent) :
    ∃ observed,
      generate_observed_SIR_curves rsf fuel percent pop beta gamma
        = some (observed, gt) ∧
      2 ≤ observed.length ∧ observed.length ≤ gt.length := by
  obtain ⟨hts, hhead, hlen, hpos⟩ :=
    rejectionLoop_gt_spec rsf hrsf fuel pop beta gamma hpop gt total cnt hrun
  have h0 : ((cumsum gt).getD 0 0 : ℚ) < (total : ℚ) * percent := by
    rw [cumsum_getD gt 0 (by omega)]
    match gt, hhead with
    | x :: rest, hhead =>
      simp only [List.head?_cons] at hhead
      injection hhead with hhead
      subst hhead
      simpa using htarget
  obtain ⟨m, hm⟩ := maxIndexLt_isSome (cumsum gt) _ 0
    (by rw [cumsum_length]; omega) h0
  refine ⟨gt.take (max m 2),
    generate_observed_eq_some rsf fuel percent beta gamma pop gt total cnt m
      hrun hm, ?_, ?_⟩
  · rw [List.length_take]
    omega
  · rw [List.length_take]
    omega

theorem generate_observed_window_bounds_witness :
    ∃ observed,
      generate_observed_SIR_curves (fun _ => rsTotal) 5 (1/2) 20 1 (1/3)
        = some (observed, [1, 19, 0]) ∧
      2 ≤ observed.length ∧ observed.length ≤ ([1, 19, 0] : List Int).length :=
  generate_observed_window_bounds (fun _ => rsTotal) 5 (1/2) 20 1 (1/3)
    [1, 19, 0] 20 1 (fun _ => rsTotal_admissible)
    (by decide) (by with_unfolding_all decide) (by with_unfolding_all decide)
    (by with_unfolding_all decide) (by with_unfolding_all decide)
    (by with_unfolding_all decide) (by with_unfolding_all decide)
    (by with_unfolding_all decide)

/-- C1 counterexample: with admissible draws, `pop_size = 20 > 0`,
`beta = 1 > 0`, `gamma = 1/3 ∈ (0,1)` and `percent_infected = 0 ∈ [0,1)`,
the rejection loop completes (curve `[1,19,0]`, total 20), yet
`generate_observed_SIR_curves` does not return normally: the index set of
`np.where(cumulative_infections < target_size)` is empty, so
`np.max` raises `ValueError` (modelled as `none`), refuting the claim
that the floor at 2 makes the call total on this input domain. -/
theorem generate_observed_empty_where_raises :
    (∀ a : Nat, rsTotal.Admissible) ∧
    ((0:Int) < 20 ∧ (0:ℚ) ≤ 0 ∧ (0:ℚ) < 1 ∧ (0:ℚ) < 1 ∧
      0 < (1/3:ℚ) ∧ (1/3:ℚ) < 1 ∧
      rejectionLoop (gtGen (fun _ => rsTotal) 5 20 1 (1/3)) none 0 0
        = some ([1, 19, 0], 20, 1) ∧
      maxIndexLt (cumsum [1, 19, 0]) ((20 : ℚ) * 0) = none ∧
      generate_observed_SIR_curves (fun _ => rsTotal) 5 0 20 1 (1/3)
        = none) :=
  ⟨fun _ => rsTotal_admissible, by with_unfolding_all decide⟩

theorem take_sum_le_take_succ_sum (l : List Int) (hpos : ∀ x ∈ l, 0 ≤ x)
    (k : Nat) : (l.take k).sum ≤ (l.take (k + 1)).sum := by
  rcases le_or_lt l.length k with h | h
  · rw [List.take_of_length_le h, List.take_of_length_le (by omega)]
  · rw [List.take_succ, List.sum_append]
    have h0 : 0 ≤ (l[k]?.toList).sum := by
      rcases hk : l[k]? with _ | v
      · simp
      · have hv : v ∈ l := List.getElem?_mem hk
        simpa using hpos v hv
    omega

/-- C2 (amended): when the floor at 2 does not apply, the observed window
is a strict prefix of the ground truth and stops one day *before* the
last day on which the cumulative count is still below the target:
`sum(observed) < target_size`, the window extended by one day still has
`sum < target_size`, and the window extended by two days reaches the
target.  (The unamended claim, that one extra day already reaches the
target, is refuted by `generate_observed_stop_rule_counterexample`.) -/
theorem generate_observed_stop_rule
    (rsf : Nat → RandomSource) (fuel : Nat) (percent : ℚ) (pop : Int)
    (beta gamma : ℚ) (observed gt : List Int)
    (hrsf : ∀ a, (rsf a).Admissible) (hpop : 0 < pop) (hp1 : percent < 1)
    (hobs : generate_observed_SIR_curves rsf fuel percent pop beta gamma
      = some (observed, gt))
    (hfloor : 2 < observed.length) :
    observed.length < gt.length ∧
    (observed.sum : ℚ) < (gt.sum : ℚ) * percent ∧
    (((gt.take (observed.length + 1)).sum : ℚ) < (gt.sum : ℚ) * percent) ∧
    ((gt.sum : ℚ) * percent ≤ ((gt.take (observed.length + 2)).sum : ℚ)) := by
  obtain ⟨total, cnt, m, hrun, hm, hobseq⟩ :=
    generate_observed_some_inv rsf fuel percent pop beta gamma observed gt hobs
  obtain ⟨hts, hhead, hlen, hpos⟩ :=
    rejectionLoop_gt_spec rsf hrsf fuel pop beta gamma hpop gt total cnt hrun
  obtain ⟨hmlen, hmlt, hmmax⟩ := maxIndexLt_some_spec _ _ _ hm
  rw [cumsum_length] at hmlen
  subst hts
  have hobslen : observed.length = m := by
    rw [hobseq, List.length_take]
    rw [hobseq, List.length_take] at hfloor
    omega
  have hm2 : 2 < m := by omega
  have hmax2 : max m 2 = m := by omega
  have hsum1 : ((gt.take (m + 1)).sum : ℚ) < (gt.sum : ℚ) * percent := by
    rw [cumsum_getD gt m hmlen] at hmlt
    exact hmlt
  have hsumpos : (0 : Int) ≤ gt.sum := List.sum_nonneg hpos
  have hlen1 : m + 1 < gt.length := by
    by_contra hcon
    have hml : m + 1 = gt.length := by omega
    rw [hml, List.take_of_length_le (le_refl _)] at hsum1
    have hle : (gt.sum : ℚ) * percent ≤ (gt.sum : ℚ) := by
      have h0 : (0 : ℚ) ≤ (gt.sum : ℚ) := by exact_mod_cast hsumpos
      nlinarith
    linarith
  have hsum2 : (gt.sum : ℚ) * percent ≤ ((gt.take (m + 2)).sum : ℚ) := by
    have hnot : ¬(((cumsum gt).getD (m + 1) 0 : ℚ) < (gt.sum : ℚ) * percent) := by
      intro hlt
      have := hmmax (m + 1) (by rw [cumsum_length]; omega) hlt
      omega
    rw [cumsum_getD gt (m + 1) hlen1] at hnot
    exact le_of_not_lt hnot
  have hobssum : observed.sum = (gt.take m).sum := by
    rw [hobseq, hmax2]
  have hmono : ((gt.take m).sum : ℚ) ≤ ((gt.take (m + 1)).sum : ℚ) := by
    exact_mod_cast take_sum_le_take_succ_sum gt hpos m
  refine ⟨by omega, ?_, ?_, ?_⟩
  · rw [hobssum]
    linarith
  · rw [hobslen]
    exact hsum1
  · rw [hobslen]
    exact hsum2

theorem generate_observed_stop_rule_witness :
    ([1, 2, 4] : List Int).length < ([1, 2, 4, 8, 16, 0] : List Int).length ∧
    (([1, 2, 4] : List Int).sum : ℚ)
      < (([1, 2, 4, 8, 16, 0] : List Int).sum : ℚ) * (20/31) ∧
    (((([1, 2, 4, 8, 16, 0] : List Int).take
        (([1, 2, 4] : List Int).length + 1)).sum : ℚ)
      < (([1, 2, 4, 8, 16, 0] : List Int).sum : ℚ) * (20/31)) ∧
    ((([1, 2, 4, 8, 16, 0] : List Int).sum : ℚ) * (20/31)
      ≤ ((([1, 2, 4, 8, 16, 0] : List Int).take
        (([1, 2, 4] : List Int).length + 2)).sum : ℚ)) :=
  generate_observed_stop_rule (fun _ => rsDoubling) 8 (20/31) 32 1 (1/3)
    [1, 2, 4] [1, 2, 4, 8, 16, 0] (fun _ => rsDoubling_admissible)
    (by decide) (by with_unfolding_all decide)
    (by with_unfolding_all decide) (by decide)

/-- C2 counterexample: with admissible draws producing the curve
`[1, 2, 4, 8, 16, 0]` (total 31) and `percent_infected = 20/31` (target
20), the observed window is `[1, 2, 4]` — the floor does not apply and it
is a strict prefix — yet `sum(ground_truth[0:len(observed)+1]) = 15 < 20`:
extending the window by one day does *not* reach the target, refuting the
claim as stated. -/
theorem generate_observed_stop_rule_counterexample :
    (∀ a : Nat, rsDoubling.Admissible) ∧
    ((0:Int) < 32 ∧ (0:ℚ) ≤ 20/31 ∧ (20/31:ℚ) < 1 ∧
      generate_observed_SIR_curves (fun _ => rsDoubling) 8 (20/31) 32 1 (1/3)
        = some ([1, 2, 4], [1, 2, 4, 8, 16, 0]) ∧
      2 < ([1, 2, 4] : List Int).length ∧
      ([1, 2, 4] : List Int).length < ([1, 2, 4, 8, 16, 0] : List Int).length ∧
      ¬((([1, 2, 4, 8, 16, 0] : List Int).sum : ℚ) * (20/31)
        ≤ ((([1, 2, 4, 8, 16, 0] : List Int).take
          (([1, 2, 4] : List Int).length + 1)).sum : ℚ))) :=
  ⟨fun _ => rsDoubling_admissible, by with_unfolding_all decide⟩

theorem cumsum_getElem? (l : List Int) (i : Nat) (hi : i < l.length) :
    (cumsum l)[i]? = some ((l.take (i + 1)).sum) := by
  have hlt : i < (cumsum l).length := by
    rw [cumsum_length]
    exact hi
  rw [List.getElem?_eq_getElem hlt]
  have h1 : (cumsum l).getD i 0 = (cumsum l)[i] := by
    rw [List.getD_eq_getElem?_getD, List.getElem?_eq_getElem hlt,
      Option.getD_some]
  rw [← h1, cumsum_getD l i hi]

theorem nonPredictiveCumsum_length (l : List Int) :
    (nonPredictiveCumsum l).length = l.length := by
  unfold nonPredictiveCumsum
  rw [List.length_dropLast, cumsum_length, List.length_cons]
  omega

theorem nonPredictiveCumsum_getElem? (l : List Int) (i : Nat)
    (hi : i < l.length) :
    (nonPredictiveCumsum l)[i]? = some ((l.take i).sum) := by
  unfold nonPredictiveCumsum
  rw [List.getElem?_dropLast,
    if_pos (by rw [cumsum_length, List.length_cons]; omega)]
  have ht : (0 :: l).take (i + 1) = 0 :: l.take i := by simp
  rw [cumsum_getElem? (0 :: l) i (by simp; omega), ht]
  simp

theorem nonPredictiveCumsum_getD (l : List Int) (i : Nat)
    (hi : i < l.length) :
    (nonPredictiveCumsum l).getD i 0 = (l.take i).sum := by
  rw [List.getD_eq_getElem?_getD, nonPredictiveCumsum_getElem? l i hi,
    Option.getD_some]

theorem mkTrajectory_fields (cfg : SimConfig) (uid j k : Nat)
    (dt : DiseaseTrajectory) (h : mkTrajectory cfg uid j k = some dt) :
    dt.unique_id = uid ∧ dt.simulation_number = j ∧
    dt.epidemic_number = k ∧
    dt.metadata = mkMetaData cfg.num_epidemics cfg.const_estimate_of_total
      cfg.percent_infected cfg.constant_pop_size cfg.beta
      cfg.constant_gamma k ∧
    dt.v = matColumn cfg.v k ∧ dt.alpha = cfg.alpha ∧
    dt.cumulative_infections_over_time
      = nonPredictiveCumsum dt.num_new_infections_over_time ∧
    dt.ground_truth_cumulative_infections_over_time
      = nonPredictiveCumsum dt.ground_truth_infections_over_time := by
  unfold mkTrajectory at h
  dsimp only at h
  split at h
  · exact absurd h (by simp)
  · simp only [Option.some.injEq] at h
    subst h
    exact ⟨rfl, rfl, rfl, rfl, rfl, rfl, rfl, rfl⟩

theorem epiLoop_spec (cfg : SimConfig) (j : Nat) :
    ∀ (rem uid k : Nat) (l : List DiseaseTrajectory),
      epiLoop cfg j uid k rem = some l →
      l.length = rem ∧
      ∀ i, i < rem → l[i]? = mkTrajectory cfg (uid + i) j (k + i) := by
  intro rem
  induction rem with
  | zero =>
    intro uid k l h
    simp only [epiLoop, Option.some.injEq] at h
    subst h
    exact ⟨rfl, fun i hi => absurd hi (by omega)⟩
  | succ rem ih =>
    intro uid k l h
    simp only [epiLoop] at h
    rcases hmk : mkTrajectory cfg uid j k with _ | dt <;> rw [hmk] at h
    · exact absurd h (by simp)
    · rcases hrest : epiLoop cfg j (uid + 1) (k + 1) rem
        with _ | rest <;> rw [hrest] at h
      · exact absurd h (by simp)
      · simp only [Option.some.injEq] at h
        subst h
        obtain ⟨hlen, hidx⟩ := ih (uid + 1) (k + 1) rest hrest
        refine ⟨by simp [hlen], ?_⟩
        intro i hi
        cases i with
        | zero =>
          simpa using hmk.symm
        | succ i =>
          have e1 : uid + (i + 1) = uid + 1 + i := by omega
          have e2 : k + (i + 1) = k + 1 + i := by omega
          rw [List.getElem?_cons_succ, e1, e2]
          exact hidx i (by omega)

theorem simLoop_spec (cfg : SimConfig) :
    ∀ (rem uid j : Nat) (l : List DiseaseTrajectory),
      simLoop cfg uid j rem = some l →
      l.length = rem * cfg.num_epidemics ∧
      ∀ jj kk, jj < rem → kk < cfg.num_epidemics →
        l[jj * cfg.num_epidemics + kk]?
          = mkTrajectory cfg (uid + (jj * cfg.num_epidemics + kk))
              (j + jj) kk := by
  intro rem
  induction rem with
  | zero =>
    intro uid j l h
    simp only [simLoop, Option.some.injEq] at h
    subst h
    exact ⟨by simp, fun jj kk hjj _ => absurd hjj (by omega)⟩
  | succ rem ih =>
    intro uid j l h
    simp only [simLoop] at h
    rcases hinner : epiLoop cfg j uid 0 cfg.num_epidemics
      with _ | inner <;> rw [hinner] at h
    · exact absurd h (by simp)
    · rcases hrest : simLoop cfg (uid + cfg.num_epidemics) (j + 1) rem
        with _ | rest <;> rw [hrest] at h
      · exact absurd h (by simp)
      · simp only [Option.some.injEq] at h
        subst h
        obtain ⟨hilen, hiidx⟩ := epiLoop_spec cfg j cfg.num_epidemics uid 0
          inner hinner
        obtain ⟨hrlen, hridx⟩ := ih (uid + cfg.num_epidemics) (j + 1) rest
          hrest
        constructor
        · rw [List.length_append, hilen, hrlen, Nat.succ_mul]
          omega
        · intro jj kk hjj hkk
          cases jj with
          | zero =>
            rw [List.getElem?_append_left (by rw [hilen]; simpa using hkk)]
            have := hiidx kk (by simpa using hkk)
            simpa using this
          | succ jj =>
            have hidx2 : inner.length ≤ (jj + 1) * cfg.num_epidemics + kk := by
              rw [hilen, Nat.succ_mul]
              omega
            rw [List.getElem?_append_right hidx2]
            have e3 : (jj + 1) * cfg.num_epidemics + kk - inner.length
                = jj * cfg.num_epidemics + kk := by
              rw [hilen, Nat.succ_mul]
              omega
            rw [e3]
            have e4 : uid + cfg.num_epidemics
                  + (jj * cfg.num_epidemics + kk)
                = uid + ((jj + 1) * cfg.num_epidemics + kk) := by
              rw [Nat.succ_mul]
              omega
            have e5 : j + 1 + jj = j + (jj + 1) := by omega
            rw [hridx jj kk (by omega) hkk, e4, e5]

theorem generate_SIR_simulations_spec (cfg : SimConfig)
    (l : List DiseaseTrajectory)
    (hrun : generate_SIR_simulations cfg = some l) :
    l.length = cfg.num_simulations * cfg.num_epidemics ∧
    ∀ jj kk, jj < cfg.num_simulations → kk < cfg.num_epidemics →
      l[jj * cfg.num_epidemics + kk]?
        = mkTrajectory cfg (jj * cfg.num_epidemics + kk) jj kk := by
  obtain ⟨h1, h2⟩ := simLoop_spec cfg cfg.num_simulations 0 0 l hrun
  refine ⟨h1, ?_⟩
  intro jj kk hjj hkk
  have h := h2 jj kk hjj hkk
  simpa using h

theorem generate_SIR_simulations_mem (cfg : SimConfig)
    (l : List DiseaseTrajectory)
    (hrun : generate_SIR_simulations cfg = some l)
    (dt : DiseaseTrajectory) (hdt : dt ∈ l) :
    ∃ jj kk, jj < cfg.num_simulations ∧ kk < cfg.num_epidemics ∧
      mkTrajectory cfg (jj * cfg.num_epidemics + kk) jj kk = some dt := by
  obtain ⟨hlen, hidx⟩ := generate_SIR_simulations_spec cfg l hrun
  obtain ⟨i, hi⟩ := List.getElem?_of_mem hdt
  have hilen : i < l.length := by
    by_contra hcon
    rw [List.getElem?_eq_none (by omega)] at hi
    simp at hi
  rcases Nat.eq_zero_or_pos cfg.num_epidemics with h0 | hE
  · rw [hlen, h0, Nat.mul_zero] at hilen
    omega
  · rw [hlen] at hilen
    have hkk : i % cfg.num_epidemics < cfg.num_epidemics := Nat.mod_lt _ hE
    have hjj : i / cfg.num_epidemics < cfg.num_simulations :=
      (Nat.div_lt_iff_lt_mul hE).mpr hilen
    have hdec : i / cfg.num_epidemics * cfg.num_epidemics
        + i % cfg.num_epidemics = i := by
      rw [Nat.mul_comm]
      exact Nat.div_add_mod i cfg.num_epidemics
    refine ⟨i / cfg.num_epidemics, i % cfg.num_epidemics, hjj, hkk, ?_⟩
    rw [← hidx _ _ hjj hkk, hdec]
    exact hi

/-- C5: `generate_SIR_simulations` returns exactly
`num_simulations * num_epidemics` trajectories in simulation-major,
epidemic-minor order: the trajectory at list position
`j*num_epidemics + k` has `unique_id = j*num_epidemics + k`,
`simulation_number = j`, `epidemic_number = k`, and the `unique_id`
values form exactly the range `[0, num_simulations*num_epidemics)`. -/
theorem generate_SIR_simulations_count_and_ids (cfg : SimConfig)
    (l : List DiseaseTrajectory)
    (hE : 1 ≤ cfg.num_epidemics)
    (hrun : generate_SIR_simulations cfg = some l) :
    l.length = cfg.num_simulations * cfg.num_epidemics ∧
    (∀ j k, j < cfg.num_simulations → k < cfg.num_epidemics →
      ∃ dt, l[j * cfg.num_epidemics + k]? = some dt ∧
        dt.unique_id = j * cfg.num_epidemics + k ∧
        dt.simulation_number = j ∧ dt.epidemic_number = k) ∧
    l.map (fun dt => dt.unique_id)
      = List.range (cfg.num_simulations * cfg.num_epidemics) := by
  obtain ⟨hlen, hidx⟩ := generate_SIR_simulations_spec cfg l hrun
  have hmain : ∀ j k, j < cfg.num_simulations → k < cfg.num_epidemics →
      ∃ dt, l[j * cfg.num_epidemics + k]? = some dt ∧
        dt.unique_id = j * cfg.num_epidemics + k ∧
        dt.simulation_number = j ∧ dt.epidemic_number = k := by
    intro j k hj hk
    have hlt : j * cfg.num_epidemics + k < l.length := by
      rw [hlen]
      calc j * cfg.num_epidemics + k
          < (j + 1) * cfg.num_epidemics := by rw [Nat.succ_mul]; omega
        _ ≤ cfg.num_simulations * cfg.num_epidemics :=
            Nat.mul_le_mul_right _ hj
    rcases hdt : l[j * cfg.num_epidemics + k]? with _ | dt
    · rw [List.getElem?_eq_none_iff] at hdt
      omega
    · have hmk : mkTrajectory cfg (j * cfg.num_epidemics + k) j k
          = some dt := by
        rw [← hidx j k hj hk]
        exact hdt
      obtain ⟨f1, f2, f3, _⟩ := mkTrajectory_fields cfg _ j k dt hmk
      exact ⟨dt, rfl, f1, f2, f3⟩
  refine ⟨hlen, hmain, ?_⟩
  apply List.ext_getElem?
  intro i
  rw [List.getElem?_map]
  rcases lt_or_ge i (cfg.num_simulations * cfg.num_epidemics) with hi | hi
  · have hE0 : 0 < cfg.num_epidemics := hE
    have hkk : i % cfg.num_epidemics < cfg.num_epidemics := Nat.mod_lt _ hE0
    have hjj : i / cfg.num_epidemics < cfg.num_simulations :=
      (Nat.div_lt_iff_lt_mul hE0).mpr hi
    have hdec : i / cfg.num_epidemics * cfg.num_epidemics
        + i % cfg.num_epidemics = i := by
      rw [Nat.mul_comm]
      exact Nat.div_add_mod i cfg.num_epidemics
    obtain ⟨dt, hdt, hid, _, _⟩ := hmain _ _ hjj hkk
    rw [hdec] at hdt
    rw [hdt, List.getElem?_range hi]
    simp only [Option.map_some']
    rw [hid, hdec]
  · rw [List.getElem?_eq_none (by omega : l.length ≤ i),
      List.getElem?_eq_none (by rw [List.length_range]; omega)]
    simp

theorem generate_SIR_simulations_count_and_ids_witness :
    ∃ l, generate_SIR_simulations cfgW = some l ∧
      (l.length = cfgW.num_simulations * cfgW.num_epidemics ∧
      (∀ j k, j < cfgW.num_simulations → k < cfgW.num_epidemics →
        ∃ dt, l[j * cfgW.num_epidemics + k]? = some dt ∧
          dt.unique_id = j * cfgW.num_epidemics + k ∧
          dt.simulation_number = j ∧ dt.epidemic_number = k) ∧
      l.map (fun dt => dt.unique_id)
        = List.range (cfgW.num_simulations * cfgW.num_epidemics)) := by
  have h : generate_SIR_simulations cfgW
      = some ((generate_SIR_simulations cfgW).getD []) := by
    with_unfolding_all rfl
  exact ⟨_, h, generate_SIR_simulations_count_and_ids cfgW _ (by decide) h⟩

/-- C6: every trajectory built by `generate_SIR_simulations` carries
"non-predictive" cumulative series of the same length as the underlying
series, with entry `i` equal to the sum of the entries strictly before
day `i` — both for the observed series and for the ground-truth series. -/
theorem generate_SIR_simulations_cumulative (cfg : SimConfig)
    (l : List DiseaseTrajectory)
    (hrun : generate_SIR_simulations cfg = some l) :
    ∀ dt ∈ l,
      dt.cumulative_infections_over_time.length
        = dt.num_new_infections_over_time.length ∧
      (∀ i, i < dt.num_new_infections_over_time.length →
        dt.cumulative_infections_over_time.getD i 0
          = (dt.num_new_infections_over_time.take i).sum) ∧
      dt.ground_truth_cumulative_infections_over_time.length
        = dt.ground_truth_infections_over_time.length ∧
      (∀ i, i < dt.ground_truth_infections_over_time.length →
        dt.ground_truth_cumulative_infections_over_time.getD i 0
          = (dt.ground_truth_infections_over_time.take i).sum) := by
  intro dt hdt
  obtain ⟨jj, kk, _, _, hmk⟩ :=
    generate_SIR_simulations_mem cfg l hrun dt hdt
  obtain ⟨_, _, _, _, _, _, hc1, hc2⟩ :=
    mkTrajectory_fields cfg _ jj kk dt hmk
  rw [hc1, hc2]
  exact ⟨nonPredictiveCumsum_length _,
    fun i hi => nonPredictiveCumsum_getD _ i hi,
    nonPredictiveCumsum_length _,
    fun i hi => nonPredictiveCumsum_getD _ i hi⟩

theorem generate_SIR_simulations_cumulative_witness :
    ∃ l, generate_SIR_simulations cfgW = some l ∧
      ∀ dt ∈ l,
        dt.cumulative_infections_over_time.length
          = dt.num_new_infections_over_time.length ∧
        (∀ i, i < dt.num_new_infections_over_time.length →
          dt.cumulative_infections_over_time.getD i 0
            = (dt.num_new_infections_over_time.take i).sum) ∧
        dt.ground_truth_cumulative_infections_over_time.length
          = dt.ground_truth_infections_over_time.length ∧
        (∀ i, i < dt.ground_truth_infections_over_time.length →
          dt.ground_truth_cumulative_infections_over_time.getD i 0
            = (dt.ground_truth_infections_over_time.take i).sum) := by
  have h : generate_SIR_simulations cfgW
      = some ((generate_SIR_simulations cfgW).getD []) := by
    with_unfolding_all rfl
  exact ⟨_, h, generate_SIR_simulations_cumulative cfgW _ h⟩

/-- C8: in one batch of `generate_SIR_simulations`, the beta-generator
result and the per-slot `percent_infected` draws are fixed before the
nested loops, so any two trajectories with the same `epidemic_number`
(across different replicates) carry identical metadata, the same
covariate column `v` and the same weight vector `alpha`. -/
theorem generate_SIR_simulations_shared_metadata (cfg : SimConfig)
    (l : List DiseaseTrajectory)
    (hrun : generate_SIR_simulations cfg = some l) :
    ∀ dt1 ∈ l, ∀ dt2 ∈ l,
      dt1.epidemic_number = dt2.epidemic_number →
      dt1.metadata = dt2.metadata ∧ dt1.v = dt2.v ∧
        dt1.alpha = dt2.alpha := by
  intro dt1 h1 dt2 h2 hk
  obtain ⟨j1, k1, _, _, hmk1⟩ :=
    generate_SIR_simulations_mem cfg l hrun dt1 h1
  obtain ⟨j2, k2, _, _, hmk2⟩ :=
    generate_SIR_simulations_mem cfg l hrun dt2 h2
  obtain ⟨_, _, e1, m1, v1, a1, _⟩ := mkTrajectory_fields cfg _ j1 k1 dt1 hmk1
  obtain ⟨_, _, e2, m2, v2, a2, _⟩ := mkTrajectory_fields cfg _ j2 k2 dt2 hmk2
  have hkk : k1 = k2 := by
    rw [← e1, ← e2, hk]
  subst hkk
  rw [m1, m2, v1, v2, a1, a2]
  exact ⟨rfl, rfl, rfl⟩

theorem generate_SIR_simulations_shared_metadata_witness :
    ∃ l, generate_SIR_simulations cfgW = some l ∧
      ∀ dt1 ∈ l, ∀ dt2 ∈ l,
        dt1.epidemic_number = dt2.epidemic_number →
        dt1.metadata = dt2.metadata ∧ dt1.v = dt2.v ∧
          dt1.alpha = dt2.alpha := by
  have h : generate_SIR_simulations cfgW
      = some ((generate_SIR_simulations cfgW).getD []) := by
    with_unfolding_all rfl
  exact ⟨_, h, generate_SIR_simulations_shared_metadata cfgW _ h⟩

/-- C9: `generate_betas_from_single_random_covariate(n)` returns `beta`
of length `n`, `v` of shape `(1, n)` with every entry in `[0,1]`,
`alpha = [1.0]`, and `beta[i] = 0.4 * exp(alpha · v[:, i])
= 0.4 * exp(v[0, i])` for every `i < n` (with `np.exp` abstracted by
`expF` and the uniform draws by the stream `u` with values in `[0,1)`). -/
theorem generate_betas_single_covariate_spec (expF : ℚ → ℚ) (u : Nat → ℚ)
    (n : Nat) (hu : ∀ i, 0 ≤ u i ∧ u i < 1) :
    (generate_betas_from_single_random_covariate expF u n).1.length = n ∧
    (generate_betas_from_single_random_covariate expF u n).2.1.length = 1 ∧
    (∀ row ∈ (generate_betas_from_single_random_covariate expF u n).2.1,
      row.length = n ∧ ∀ x ∈ row, 0 ≤ x ∧ x ≤ 1) ∧
    (generate_betas_from_single_random_covariate expF u n).2.2 = [1] ∧
    ∀ i, i < n →
      (generate_betas_from_single_random_covariate expF u n).1[i]?
        = some ((4 : ℚ) / 10 * expF (dotProduct
            (generate_betas_from_single_random_covariate expF u n).2.2
            (matColumn
              (generate_betas_from_single_random_covariate expF u n).2.1
              i))) ∧
      (generate_betas_from_single_random_covariate expF u n).1[i]?
        = some ((4 : ℚ) / 10 * expF
            (((generate_betas_from_single_random_covariate
                expF u n).2.1.getD 0 []).getD i 0)) := by
  unfold generate_betas_from_single_random_covariate
  refine ⟨by simp, by simp, ?_, rfl, ?_⟩
  · intro row hrow
    simp only [List.mem_singleton] at hrow
    subst hrow
    refine ⟨by simp, ?_⟩
    intro x hx
    simp only [List.mem_map, List.mem_range] at hx
    obtain ⟨i, _, rfl⟩ := hx
    exact ⟨(hu i).1, le_of_lt (hu i).2⟩
  · intro i hi
    constructor
    · rw [List.getElem?_map, List.getElem?_range hi]
      rfl
    · rw [List.getElem?_map, List.getElem?_range hi]
      simp only [Option.map_some', Option.some.injEq]
      congr 1
      simp [dotProduct, matColumn, List.getD_eq_getElem?_getD,
        List.getElem?_map, List.getElem?_range hi]

theorem generate_betas_single_covariate_spec_witness :
    (generate_betas_from_single_random_covariate id (fun _ => 1/2)
      3).1.length = 3 ∧
    (generate_betas_from_single_random_covariate id (fun _ => 1/2)
      3).2.1.length = 1 ∧
    (∀ row ∈ (generate_betas_from_single_random_covariate id (fun _ => 1/2)
        3).2.1,
      row.length = 3 ∧ ∀ x ∈ row, 0 ≤ x ∧ x ≤ 1) ∧
    (generate_betas_from_single_random_covariate id (fun _ => 1/2)
      3).2.2 = [1] ∧
    ∀ i, i < 3 →
      (generate_betas_from_single_random_covariate id (fun _ => 1/2)
        3).1[i]?
        = some ((4 : ℚ) / 10 * id (dotProduct
            (generate_betas_from_single_random_covariate id (fun _ => 1/2)
              3).2.2
            (matColumn
              (generate_betas_from_single_random_covariate id
                (fun _ => 1/2) 3).2.1 i))) ∧
      (generate_betas_from_single_random_covariate id (fun _ => 1/2)
        3).1[i]?
        = some ((4 : ℚ) / 10 * id
            (((generate_betas_from_single_random_covariate id
                (fun _ => 1/2) 3).2.1.getD 0 []).getD i 0)) :=
  generate_betas_single_covariate_spec id (fun _ => 1/2) 3
    (fun i =>
      ⟨(by with_unfolding_all decide : (0:ℚ) ≤ 1/2),
       (by with_unfolding_all decide : (1/2:ℚ) < 1)⟩)
